import Mathlib

/-!
Shallow embedding of the DeceptoGuard threat-scoring pipeline.

Strings are modelled as `List Char`.  The embedded functions mirror, line by
line, the Python sources:
  * `src/backend/utils/security_utils.py` — `sanitize_input`, `validate_url`,
    `validate_api_request`;
  * `src/backend/feature_extraction.py`  — `extract_features`;
  * `src/backend/app.py`                 — `calculate_mock_score`,
    `get_reasons`, and the two scoring branches of `predict`.
The relevant behaviour of the Python standard library (`urllib.parse.urlsplit`,
`html.escape`, `str.strip`, `str.lower`, `re.search` on the literal patterns
used here) is embedded explicitly below, restricted to ASCII where noted.
-/

/-- Substring test: `occurs n h` is `true` iff `n` occurs contiguously in `h`.
Models Python's `n in h` on strings and `re.search` on a literal pattern. -/
def occurs : List Char → List Char → Bool
  | n, [] => n.isEmpty
  | n, l@(_ :: t) => n.isPrefixOf l || occurs n t

/-- ASCII lower-casing of one character; models Python `str.lower` for the
ASCII inputs that appear in this development. -/
def lowerChar (c : Char) : Char := c.toLower

/-- Lower-case a whole string (character-wise, ASCII). -/
def lowerStr (l : List Char) : List Char := l.map lowerChar

/-- A C0 control character or the space character (code point ≤ 0x20);
`urllib.parse` strips these from the front of the URL
(`_WHATWG_C0_CONTROL_OR_SPACE`). -/
def c0OrSpace (c : Char) : Bool := c.val ≤ 0x20

/-- Tab, carriage return, or line feed; `urllib.parse` removes these anywhere
in the URL (`_UNSAFE_URL_BYTES_TO_REMOVE`). -/
def unsafeUrlByte (c : Char) : Bool := c = '\t' || c = '\r' || c = '\n'

/-- A character allowed in a URL scheme (`urllib.parse.scheme_chars`):
ASCII letters, digits, `+`, `-`, `.`. -/
def schemeChar (c : Char) : Bool := c.isAlpha || c.isDigit || c = '+' || c = '-' || c = '.'

/-- Characters that end the network-location component
(`urllib.parse._splitnetloc` looks for `/`, `?`, `#`). -/
def netlocDelim (c : Char) : Bool := c = '/' || c = '?' || c = '#'

/-- `urllib.parse.urlsplit`, restricted to the two components this codebase
reads (`scheme`, `netloc`), as in CPython ≥ 3.11: left-strip C0/space, remove
tab/CR/LF, detect a scheme (first char an ASCII letter, all chars before the
first `:` scheme characters; the scheme is lower-cased), then, when the rest
starts with `//`, take the netloc up to the first `/`, `?` or `#` and raise
`ValueError("Invalid IPv6 URL")` on an unbalanced bracket.  The non-ASCII
NFKC check of `_checknetloc` is omitted: every input considered here is
ASCII.  Result: `.ok (scheme, netloc)` or `.error message`. -/
def pyUrlsplit (url : List Char) : Except (List Char) (List Char × List Char) :=
  let u1 := url.dropWhile c0OrSpace
  let u2 := u1.filter (fun c => !(unsafeUrlByte c))
  let p :=
    match u2.findIdx? (· = ':') with
    | some i =>
      if 0 < i ∧ (u2.headD ' ').isAlpha ∧ (u2.take i).all schemeChar then
        (lowerStr (u2.take i), u2.drop (i + 1))
      else ([], u2)
    | none => ([], u2)
  match p.2 with
  | '/' :: '/' :: r =>
    let netloc := r.takeWhile (fun c => !(netlocDelim c))
    if (netloc.contains '[' && !(netloc.contains ']'))
        || (netloc.contains ']' && !(netloc.contains '[')) then
      .error "Invalid IPv6 URL".toList
    else
      .ok (p.1, netloc)
  | _ => .ok (p.1, [])

/-- One step of Python's `html.escape` (with `quote=True`): the five reserved
characters map to entities, everything else to itself.  The sequential
`str.replace` passes in `html.escape` are equivalent to this character-wise
map because `&` is replaced first and no later replacement output is itself
re-scanned. -/
def escChar (c : Char) : List Char :=
  if c = '&' then "&amp;".toList
  else if c = '<' then "&lt;".toList
  else if c = '>' then "&gt;".toList
  else if c = '"' then "&quot;".toList
  else if c = '\'' then "&#x27;".toList
  else [c]

/-- Python `html.escape` with `quote=True`. -/
def htmlEscape : List Char → List Char
  | [] => []
  | c :: t => escChar c ++ htmlEscape t

/-- ASCII whitespace stripped by Python `str.strip()` (Unicode whitespace is
irrelevant to the inputs considered here). -/
def isPySpace (c : Char) : Bool :=
  c = ' ' || c = '\t' || c = '\n' || c = '\r' || c = '\x0B' || c = '\x0C'

/-- Python `str.strip()`: drop leading and trailing whitespace. -/
def pyStrip (l : List Char) : List Char :=
  ((l.dropWhile isPySpace).reverse.dropWhile isPySpace).reverse

/-- The string pipeline of `sanitize_input` (security_utils.py, lines 23-34):
remove null bytes, HTML-escape, truncate to 2048 characters, strip
surrounding whitespace. -/
def sanitizeStr (s : List Char) : List Char :=
  let s1 := s.filter (fun c => c ≠ '\x00')
  let s2 := htmlEscape s1
  let s3 := if 2048 < s2.length then s2.take 2048 else s2
  pyStrip s3

/-- A raw request value: either a Python `str` or a non-`str` value carried by
the string that Python's `str()` coercion produces for it. -/
inductive RawInput where
  | ofStr (s : List Char)
  | ofOther (coerced : List Char)
deriving DecidableEq

/-- `sanitize_input` (security_utils.py, lines 10-34).  A non-`str` value is
returned as `str(user_input)` without any further processing (the early
`return` on line 21); a `str` goes through the sanitizing pipeline. -/
def sanitize_input : RawInput → List Char
  | .ofStr s => sanitizeStr s
  | .ofOther coerced => coerced

/-- The `malicious_patterns` list of `validate_url` (security_utils.py, lines
54-65).  Each entry is the pair (literal text the regex matches, raw pattern
text interpolated into the rejection message).  The two differ only for
`eval\(` and `alert\(`, whose regexes escape the parenthesis. -/
def maliciousPatterns : List (List Char × List Char) :=
  [ ("javascript:".toList, "javascript:".toList)
  , ("data:".toList, "data:".toList)
  , ("vbscript:".toList, "vbscript:".toList)
  , ("file:".toList, "file:".toList)
  , ("<script".toList, "<script".toList)
  , ("</script>".toList, "</script>".toList)
  , ("<iframe".toList, "<iframe".toList)
  , ("</iframe>".toList, "</iframe>".toList)
  , ("eval(".toList, "eval\\(".toList)
  , ("alert(".toList, "alert\\(".toList) ]

/-- `validate_url` (security_utils.py, lines 36-84): empty check, length
check, malicious-pattern scan over the lower-cased URL (the source computes
`url_lower` once and uses it once, inlined here), then URL parsing with its
scheme/netloc checks, any parse exception being converted into a
`"URL parsing error: ..."` rejection. -/
def validate_url (url : List Char) : Bool × List Char :=
  if url.isEmpty then (false, "URL cannot be empty".toList)
  else if 2048 < url.length then (false, "URL too long (max 2048 characters)".toList)
  else
    match maliciousPatterns.find? (fun p => occurs p.1 (lowerStr url)) with
    | some p => (false, "URL contains potentially malicious content: ".toList ++ p.2)
    | none =>
      match pyUrlsplit url with
      | .error e => (false, "URL parsing error: ".toList ++ e)
      | .ok (scheme, netloc) =>
        if scheme.isEmpty || netloc.isEmpty then (false, "Invalid URL format".toList)
        else if !(scheme = "http".toList || scheme = "https".toList) then
          (false, "Only HTTP and HTTPS URLs are supported".toList)
        else (true, [])

/-- Remainders of `l` after consuming one, two, or three leading decimal
digits (the choices `\d{1,3}` can make at one point of the IPv4 regex
`\d{1,3}\.\d{1,3}\.\d{1,3}\.\d{1,3}`). -/
def afterDigits (l : List Char) : List (List Char) :=
  match l with
  | a :: t1 =>
    if a.isDigit then
      t1 :: (match t1 with
        | b :: t2 =>
          if b.isDigit then
            t2 :: (match t2 with
              | c :: t3 => if c.isDigit then [t3] else []
              | [] => [])
          else []
        | [] => [])
    else []
  | [] => []

/-- Does a match of the IPv4 regex start at the head of `l`?  Existential over
the backtracking choices of the four `\d{1,3}` groups. -/
def ipAt (l : List Char) : Bool :=
  (afterDigits l).any fun r1 =>
    match r1 with
    | '.' :: s1 =>
      (afterDigits s1).any fun r2 =>
        match r2 with
        | '.' :: s2 =>
          (afterDigits s2).any fun r3 =>
            match r3 with
            | '.' :: s3 => !(afterDigits s3).isEmpty
            | _ => false
        | _ => false
    | _ => false

/-- `re.search` of the IPv4 pattern: a match starts at some position.  Python
`\d` also matches non-ASCII digits; the inputs here are ASCII. -/
def searchIp : List Char → Bool
  | [] => false
  | l@(_ :: t) => ipAt l || searchIp t

/-- The fixed brand list of the brand-typo detector
(feature_extraction.py, line 37). -/
def brands : List (List Char) :=
  [ "google".toList, "facebook".toList, "paypal".toList, "amazon".toList
  , "netflix".toList, "microsoft".toList, "apple".toList ]

/-- Python `str.replace(old, new)` for single characters: replace every
occurrence. -/
def replaceChar (old new : Char) (l : List Char) : List Char :=
  l.map fun c => if c = old then new else c

/-- The `typo_patterns` candidate list built for one brand
(feature_extraction.py, lines 43-52). -/
def typo_patterns (brand : List Char) : List (List Char) :=
  [ replaceChar 'o' '0' brand
  , replaceChar 'l' '1' brand
  , replaceChar 'i' '1' brand
  , replaceChar 'e' '3' brand
  , brand ++ "-login".toList
  , brand ++ "-verify".toList
  , brand ++ "-secure".toList
  , "secure-".toList ++ brand ]

/-- The brand-typo feature (feature_extraction.py, lines 37-60): scan brands
in order, and within a brand its candidate patterns, setting the flag when a
pattern occurs in the lower-cased authority while the exact brand string does
not; the two `break` statements make the doubly-nested loop equivalent to
this short-circuiting existential scan. -/
def brandTypoFeature (domain : List Char) : Int :=
  let domainLower := lowerStr domain
  if brands.any (fun brand =>
      (typo_patterns brand).any fun pattern =>
        occurs pattern domainLower && !(occurs brand domainLower))
  then 1 else 0

/-- The 7-component feature vector of `extract_features`
(feature_extraction.py), in source order. -/
structure Features where
  url_length : Int
  has_ip : Int
  has_at : Int
  num_digits : Int
  has_https : Int
  num_subdomains : Int
  has_brand_typo : Int
deriving DecidableEq, Repr

/-- The feature vector as the 7-element list the Python function returns
(feature_extraction.py, lines 62-70). -/
def Features.toList (f : Features) : List Int :=
  [ f.url_length, f.has_ip, f.has_at, f.num_digits
  , f.has_https, f.num_subdomains, f.has_brand_typo ]

/-- `extract_features` (feature_extraction.py, lines 4-70).  The function has
no exception handler: when `urlparse` raises, the exception propagates, which
the embedding renders as `.error`. -/
def extract_features (url : List Char) : Except (List Char) Features :=
  match pyUrlsplit url with
  | .error e => .error e
  | .ok (scheme, domain) =>
    .ok
      { url_length := (url.length : Int)
      , has_ip := if searchIp domain then 1 else 0
      , has_at := if url.contains '@' then 1 else 0
      , num_digits := ((url.filter Char.isDigit).length : Int)
      , has_https := if scheme = "https".toList then 1 else 0
      , num_subdomains := if domain.isEmpty then 0 else (domain.count '.' : Int) - 1
      , has_brand_typo := brandTypoFeature domain }

/-- `calculate_mock_score` (app.py, lines 158-188): additive weighted rules,
then `min(score, 100)`.  The duplicated block after the `return` statement
(lines 189-218) is unreachable and not modelled. -/
def calculate_mock_score (f : Features) : Int :=
  let score : Int := 0
  let score := if 75 < f.url_length then score + 25 else score
  let score := if f.has_ip = 1 then score + 30 else score
  let score := if f.has_at = 1 then score + 20 else score
  let score := if f.has_https = 0 then score + 15 else score
  let score := if f.has_brand_typo = 1 then score + 35 else score
  let score := if 3 < f.num_subdomains then score + 10 else score
  min score 100

/-- The mock (heuristic) branch of `predict` (app.py, lines 98-106):
status, confidence, phishing score.  The Python float literal `0.8` is the
exact rational 4/5 in this model. -/
def mockPredict (f : Features) : List Char × ℚ × Int :=
  let phishing_score := calculate_mock_score f
  let confidence : ℚ := 4/5
  let status := if 70 ≤ phishing_score then "Phishing".toList else "Safe".toList
  (status, confidence, phishing_score)

/-- Python `int()` on a (rational-valued) number: truncation toward zero. -/
def pyInt (q : ℚ) : Int := if 0 ≤ q then ⌊q⌋ else ⌈q⌉

/-- Modelled from the spec: Python's built-in `round` to the nearest integer
with ties to even, the operation the spec's word "round" denotes.  The code
itself never calls `round()` on the score; this definition exists only to
compare the spec's wording with the code's `int()` truncation. -/
def pyRoundNearestEven (q : ℚ) : Int :=
  let f := ⌊q⌋
  let r := q - (f : ℚ)
  if r < 1/2 then f
  else if (1:ℚ)/2 < r then f + 1
  else if Even f then f else f + 1

/-- Python `round(x, 3)`: round to 3 decimal places (ties to even). -/
def pyRound3 (q : ℚ) : ℚ := (pyRoundNearestEven (q * 1000) : ℚ) / 1000

/-- The model branch of `predict` (app.py, lines 83-96), as a function of the
classifier's outputs: `prediction` (the predicted class) and the probability
pair `(probability[0], probability[1])` over {legitimate, phishing}.
Returns (status, confidence, phishing_score). -/
def modelPredict (prediction : Int) (proba : ℚ × ℚ) : List Char × ℚ × Int :=
  if prediction = 1 then
    ("Phishing".toList, proba.2, pyInt (proba.2 * 100))
  else
    ("Safe".toList, proba.1, pyInt ((1 - proba.1) * 100))

/-- The model-path response fields as serialized by `predict` (app.py, line
121): the confidence is reported as `round(confidence, 3)`. -/
def modelResponse (prediction : Int) (proba : ℚ × ℚ) : List Char × ℚ × Int :=
  let r := modelPredict prediction proba
  (r.1, pyRound3 r.2.1, r.2.2)

/-- `get_reasons` (app.py, lines 242-274): seven fixed-order predicate checks
each appending one fixed reason string; a fallback reason when none fired. -/
def get_reasons (f : Features) : List (List Char) :=
  let reasons : List (List Char) := []
  let reasons := if 75 < f.url_length then
    reasons ++ ["🔗 Unusually long URL detected (potential obfuscation)".toList] else reasons
  let reasons := if f.has_ip = 1 then
    reasons ++ ["🌐 URL contains IP address instead of domain name".toList] else reasons
  let reasons := if f.has_at = 1 then
    reasons ++ ["⚠️ URL contains @ symbol (potential redirect)".toList] else reasons
  let reasons := if f.has_https = 0 then
    reasons ++ ["🔒 Not using secure HTTPS protocol".toList] else reasons
  let reasons := if f.has_brand_typo = 1 then
    reasons ++ ["🎭 Possible brand impersonation detected".toList] else reasons
  let reasons := if 3 < f.num_subdomains then
    reasons ++ ["📡 Excessive number of subdomains".toList] else reasons
  let reasons := if 10 < f.num_digits then
    reasons ++ ["🔢 High number of digits in URL (suspicious pattern)".toList] else reasons
  if reasons.isEmpty then ["✅ URL appears to follow standard patterns".toList] else reasons

/-- The request body as `validate_api_request` sees it: `none` models a JSON
object without a `url` key.  (The non-`dict` early return of the Python
function is outside this model; every `RequestData` is a dict.) -/
structure RequestData where
  urlField : Option RawInput
deriving DecidableEq

/-- `validate_api_request` (security_utils.py, lines 182-212): presence check
for `url`, then sanitization, then validation; on success the sanitized URL
is handed onward (and is what feature extraction would then receive). -/
def validate_api_request (d : RequestData) : Bool × List Char × Option (List Char) :=
  match d.urlField with
  | none => (false, "Missing required field: url".toList, none)
  | some url =>
    let sanitized_url := sanitize_input url
    let v := validate_url sanitized_url
    if v.1 then (true, [], some sanitized_url) else (false, v.2, none)

/-! ### Helper lemmas about the embedded primitives -/

theorem occurs_eq_true_iff (n h : List Char) : occurs n h = true ↔ n <:+: h := by
  induction h with
  | nil => simp [occurs]
  | cons c t ih =>
    simp only [occurs, Bool.or_eq_true, List.isPrefixOf_iff_prefix, ih,
      List.infix_cons_iff]

theorem occurs_eq_false_of_not_mem {n h : List Char} {c : Char}
    (hc : c ∈ n) (hh : c ∉ h) : occurs n h = false := by
  have hno : ¬ occurs n h = true := by
    rw [occurs_eq_true_iff]
    exact fun hinf => hh (hinf.sublist.subset hc)
  exact Bool.eq_false_iff.mpr hno

/-- The five characters `html.escape` rewrites. -/
def escapedChars : List Char := ['&', '<', '>', '"', '\'']

theorem escChar_eq_of_plain {c : Char} (h : c ∉ escapedChars) : escChar c = [c] := by
  simp only [escapedChars, List.mem_cons, List.not_mem_nil, or_false, not_or] at h
  obtain ⟨h1, h2, h3, h4, h5⟩ := h
  simp [escChar, h1, h2, h3, h4, h5]

theorem htmlEscape_eq_self {s : List Char} (h : ∀ c ∈ s, c ∉ escapedChars) :
    htmlEscape s = s := by
  induction s with
  | nil => rfl
  | cons c t ih =>
    have hc := escChar_eq_of_plain (h c (by simp))
    have ht := ih fun x hx => h x (List.mem_cons_of_mem c hx)
    simp [htmlEscape, hc, ht]

theorem htmlEscape_append (l₁ l₂ : List Char) :
    htmlEscape (l₁ ++ l₂) = htmlEscape l₁ ++ htmlEscape l₂ := by
  induction l₁ with
  | nil => rfl
  | cons c t ih => simp [htmlEscape, ih]

theorem null_not_mem_escChar {c : Char} (h : c ≠ '\x00') : '\x00' ∉ escChar c := by
  unfold escChar
  split_ifs <;> first
    | decide
    | (intro hmem; exact h (List.mem_singleton.mp hmem).symm)

theorem null_not_mem_htmlEscape {s : List Char} (h : '\x00' ∉ s) :
    '\x00' ∉ htmlEscape s := by
  induction s with
  | nil => simp [htmlEscape]
  | cons c t ih =>
    simp only [htmlEscape, List.mem_append]
    rintro (hm | hm)
    · exact null_not_mem_escChar (fun hc => h (hc ▸ List.mem_cons_self c t)) hm
    · exact ih (fun hmt => h (List.mem_cons_of_mem c hmt)) hm

theorem dropWhile_head_false {α : Type} (p : α → Bool) (l : List α) {c : α}
    {t : List α} (h : l.dropWhile p = c :: t) : p c = false := by
  induction l with
  | nil => simp [List.dropWhile] at h
  | cons a l' ih =>
    rw [List.dropWhile_cons] at h
    split at h
    · exact ih h
    · next hpa => cases h; exact Bool.eq_false_iff.mpr hpa

theorem dropWhile_idem {α : Type} (p : α → Bool) (l : List α) :
    (l.dropWhile p).dropWhile p = l.dropWhile p := by
  cases h : l.dropWhile p with
  | nil => simp
  | cons c t =>
    have hc := dropWhile_head_false p l h
    rw [List.dropWhile_cons, hc]
    simp

theorem pyStrip_idem (l : List Char) : pyStrip (pyStrip l) = pyStrip l := by
  unfold pyStrip
  set A := l.dropWhile isPySpace with hA
  set B := A.reverse.dropWhile isPySpace with hB
  have h1 : B.reverse.dropWhile isPySpace = B.reverse := by
    cases hBr : B.reverse with
    | nil => simp
    | cons c t =>
      have hsfx : B <:+ A.reverse := by rw [hB]; exact List.dropWhile_suffix _
      have hpre : B.reverse <+: A := by
        have h' := List.reverse_prefix.mpr hsfx
        rwa [List.reverse_reverse] at h'
      obtain ⟨rest, hrest⟩ := hpre
      have hAeq : l.dropWhile isPySpace = c :: (t ++ rest) := by
        rw [← hA, ← hrest, hBr]
        rfl
      have hc := dropWhile_head_false isPySpace l hAeq
      rw [List.dropWhile_cons, hc]
      simp
  have h2 : B.dropWhile isPySpace = B := by rw [hB]; exact dropWhile_idem _ _
  rw [h1, List.reverse_reverse, h2]

theorem mem_of_mem_pyStrip {a : Char} {l : List Char} (h : a ∈ pyStrip l) :
    a ∈ l := by
  unfold pyStrip at h
  rw [List.mem_reverse] at h
  have h1 := (List.dropWhile_sublist (l := (l.dropWhile isPySpace).reverse)
    (p := isPySpace)).mem h
  rw [List.mem_reverse] at h1
  exact (List.dropWhile_sublist (l := l) (p := isPySpace)).mem h1

theorem length_pyStrip_le (l : List Char) : (pyStrip l).length ≤ l.length := by
  unfold pyStrip
  rw [List.length_reverse]
  calc ((l.dropWhile isPySpace).reverse.dropWhile isPySpace).length
      ≤ (l.dropWhile isPySpace).reverse.length :=
        (List.dropWhile_sublist _).length_le
    _ = (l.dropWhile isPySpace).length := List.length_reverse _
    _ ≤ l.length := (List.dropWhile_sublist _).length_le

theorem sanitizeStr_length_le (s : List Char) : (sanitizeStr s).length ≤ 2048 := by
  unfold sanitizeStr
  refine le_trans (length_pyStrip_le _) ?_
  split_ifs with h
  · rw [List.length_take]; omega
  · omega

theorem null_not_mem_sanitizeStr (s : List Char) : '\x00' ∉ sanitizeStr s := by
  intro hmem
  unfold sanitizeStr at hmem
  have h1 := mem_of_mem_pyStrip hmem
  have h2 : '\x00' ∈ htmlEscape (s.filter (fun c => c ≠ '\x00')) := by
    split at h1
    · exact List.take_subset _ _ h1
    · exact h1
  have h3 : '\x00' ∉ s.filter (fun c => c ≠ '\x00') := by
    intro hf
    have := (List.mem_filter.mp hf).2
    simp at this
  exact null_not_mem_htmlEscape h3 h2

/-! ### Claim theorems -/

/-- C1: for every 7-component feature vector, the heuristic (mock) score is
the weighted rule sum 25·[url_length>75] + 30·[has_ip=1] + 20·[has_at=1] +
15·[has_https=0] + 35·[has_brand_typo=1] + 10·[num_subdomains>3] clamped to
[0,100]; the label is Phishing iff the score is ≥ 70, else Safe; the
confidence is the constant 0.8; and the feature vector of
`http://192.168.1.1/paypal` yields score 45 and label Safe. -/
theorem heuristic_scorer_spec :
    (∀ f : Features,
      calculate_mock_score f =
        min ((if 75 < f.url_length then (25 : Int) else 0)
          + (if f.has_ip = 1 then 30 else 0)
          + (if f.has_at = 1 then 20 else 0)
          + (if f.has_https = 0 then 15 else 0)
          + (if f.has_brand_typo = 1 then 35 else 0)
          + (if 3 < f.num_subdomains then 10 else 0)) 100
      ∧ 0 ≤ calculate_mock_score f
      ∧ calculate_mock_score f ≤ 100
      ∧ (mockPredict f).1 =
          (if 70 ≤ calculate_mock_score f then "Phishing".toList else "Safe".toList)
      ∧ (mockPredict f).2.1 = 4/5)
    ∧ extract_features "http://192.168.1.1/paypal".toList =
        .ok { url_length := 25, has_ip := 1, has_at := 0, num_digits := 8
            , has_https := 0, num_subdomains := 2, has_brand_typo := 0 }
    ∧ calculate_mock_score
        { url_length := 25, has_ip := 1, has_at := 0, num_digits := 8
        , has_https := 0, num_subdomains := 2, has_brand_typo := 0 } = 45
    ∧ (mockPredict
        { url_length := 25, has_ip := 1, has_at := 0, num_digits := 8
        , has_https := 0, num_subdomains := 2, has_brand_typo := 0 }).1
        = "Safe".toList := by
  refine ⟨fun f => ⟨?_, ?_, ?_, rfl, rfl⟩, rfl, rfl, rfl⟩
  · unfold calculate_mock_score
    split_ifs <;> norm_num
  · unfold calculate_mock_score
    split_ifs <;> norm_num
  · unfold calculate_mock_score
    split_ifs <;> norm_num

/-- C8: the brand-typo feature is 1 exactly when some candidate pattern of
some brand is a contiguous substring of the lower-cased authority while the
exact brand string is not, and it is 1 for `g00gle-login.com` and 0 for
`google.com` and `docs.google.com`. -/
theorem brand_typo_spec :
    (∀ domain : List Char,
      (brandTypoFeature domain = 1 ↔
        ∃ brand ∈ brands, ∃ pattern ∈ typo_patterns brand,
          pattern <:+: lowerStr domain ∧ ¬ (brand <:+: lowerStr domain)))
    ∧ brandTypoFeature "g00gle-login.com".toList = 1
    ∧ brandTypoFeature "google.com".toList = 0
    ∧ brandTypoFeature "docs.google.com".toList = 0 := by
  refine ⟨fun domain => ?_, by decide, by decide, by decide⟩
  unfold brandTypoFeature
  constructor
  · intro h1
    have hb : brands.any (fun brand =>
        (typo_patterns brand).any fun pattern =>
          occurs pattern (lowerStr domain) && !(occurs brand (lowerStr domain)))
        = true := by
      by_contra hb
      rw [if_neg hb] at h1
      exact absurd h1 (by decide)
    rw [List.any_eq_true] at hb
    obtain ⟨brand, hbrand, hinner⟩ := hb
    rw [List.any_eq_true] at hinner
    obtain ⟨pattern, hpat, hocc⟩ := hinner
    rw [Bool.and_eq_true, Bool.not_eq_true'] at hocc
    refine ⟨brand, hbrand, pattern, hpat, (occurs_eq_true_iff _ _).mp hocc.1, ?_⟩
    intro hinf
    rw [← occurs_eq_true_iff] at hinf
    rw [hinf] at hocc
    exact absurd hocc.2 (by decide)
  · rintro ⟨brand, hbrand, pattern, hpat, hocc, hnot⟩
    have hb : brands.any (fun brand =>
        (typo_patterns brand).any fun pattern =>
          occurs pattern (lowerStr domain) && !(occurs brand (lowerStr domain)))
        = true := by
      rw [List.any_eq_true]
      refine ⟨brand, hbrand, ?_⟩
      rw [List.any_eq_true]
      refine ⟨pattern, hpat, ?_⟩
      rw [Bool.and_eq_true, Bool.not_eq_true']
      refine ⟨(occurs_eq_true_iff _ _).mpr hocc, ?_⟩
      exact Bool.eq_false_iff.mpr (fun ht => hnot ((occurs_eq_true_iff _ _).mp ht))
    rw [if_pos hb]

/-- C4 (counterexample): with the classifier predicting class 1 (phishing)
with probability mass 219/250 = 0.876, the code's phishing score is
`int(0.876·100) = 87`, while rounding 87.6 as the claim states gives 88. -/
theorem model_rounding_counterexample :
    (modelPredict 1 (31/250, 219/250)).2.2 = 87
    ∧ pyRoundNearestEven ((219/250 : ℚ) * 100) = 88
    ∧ (87 : Int) ≠ 88 := by
  have hq : ((219 : ℚ)/250 * 100) = 438/5 := by norm_num
  have hf : ⌊(438 : ℚ)/5⌋ = 87 := by
    rw [Int.floor_eq_iff]
    constructor <;> norm_num
  have hm : modelPredict 1 (31/250, 219/250) = ("Phishing".toList, 219/250, 87) := by
    unfold modelPredict pyInt
    rw [if_pos rfl, if_pos (by norm_num), hq, hf]
  refine ⟨by rw [hm], ?_, by decide⟩
  simp only [pyRoundNearestEven]
  rw [hq, hf]
  norm_num

/-- C4 (amended): when a classifier is loaded, a phishing prediction reports
confidence `p₁` (the phishing-class mass) with phishing score
`⌊p₁·100⌋` (Python `int()` truncation, not rounding); any other prediction
reports confidence `p₀` (the legitimate-class mass) with phishing score
`⌊(1−p₀)·100⌋`; the reported confidence is rounded to 3 decimal places. -/
theorem model_scorer_spec (p0 p1 : ℚ) (h0 : 0 ≤ p0) (h1 : p0 ≤ 1) (h2 : 0 ≤ p1) :
    modelResponse 1 (p0, p1) = ("Phishing".toList, pyRound3 p1, ⌊p1 * 100⌋)
    ∧ (∀ prediction : Int, prediction ≠ 1 →
        modelResponse prediction (p0, p1) =
          ("Safe".toList, pyRound3 p0, ⌊(1 - p0) * 100⌋)) := by
  have hp : pyInt (p1 * 100) = ⌊p1 * 100⌋ := by
    unfold pyInt
    exact if_pos (mul_nonneg h2 (by norm_num))
  have hs : pyInt ((1 - p0) * 100) = ⌊(1 - p0) * 100⌋ := by
    unfold pyInt
    exact if_pos (mul_nonneg (sub_nonneg.mpr h1) (by norm_num))
  have hm1 : modelPredict 1 (p0, p1) = ("Phishing".toList, p1, ⌊p1 * 100⌋) := by
    unfold modelPredict
    rw [if_pos rfl, hp]
  have hm2 : ∀ prediction : Int, prediction ≠ 1 →
      modelPredict prediction (p0, p1) = ("Safe".toList, p0, ⌊(1 - p0) * 100⌋) := by
    intro prediction hpred
    unfold modelPredict
    rw [if_neg hpred, hs]
  refine ⟨?_, fun prediction hpred => ?_⟩
  · unfold modelResponse
    rw [hm1]
  · unfold modelResponse
    rw [hm2 prediction hpred]

/-- C4 (witness): the amended model-scorer theorem applied at the concrete
probability pair (1/4, 3/4). -/
theorem model_scorer_spec_witness :
    ((0 : ℚ) ≤ 1/4 ∧ (1 : ℚ)/4 ≤ 1 ∧ (0 : ℚ) ≤ 3/4)
    ∧ (modelResponse 1 (1/4, 3/4) =
        ("Phishing".toList, pyRound3 (3/4), ⌊(3/4 : ℚ) * 100⌋)
      ∧ (∀ prediction : Int, prediction ≠ 1 →
          modelResponse prediction (1/4, 3/4) =
            ("Safe".toList, pyRound3 (1/4), ⌊(1 - (1:ℚ)/4) * 100⌋))) :=
  ⟨by norm_num,
   model_scorer_spec (1/4) (3/4) (by norm_num) (by norm_num) (by norm_num)⟩

/-- Modelled from the spec's §4.5 wording: the explanation generator as an
ordered concatenation of seven independently-gated fixed reasons, with a
single fallback reason when none fires.  Compared against the code's
`get_reasons` below. -/
def reasonsSpec (f : Features) : List (List Char) :=
  let l :=
    (if 75 < f.url_length then
      ["🔗 Unusually long URL detected (potential obfuscation)".toList] else [])
    ++ (if f.has_ip = 1 then
      ["🌐 URL contains IP address instead of domain name".toList] else [])
    ++ (if f.has_at = 1 then
      ["⚠️ URL contains @ symbol (potential redirect)".toList] else [])
    ++ (if f.has_https = 0 then
      ["🔒 Not using secure HTTPS protocol".toList] else [])
    ++ (if f.has_brand_typo = 1 then
      ["🎭 Possible brand impersonation detected".toList] else [])
    ++ (if 3 < f.num_subdomains then
      ["📡 Excessive number of subdomains".toList] else [])
    ++ (if 10 < f.num_digits then
      ["🔢 High number of digits in URL (suspicious pattern)".toList] else [])
  if l = [] then ["✅ URL appears to follow standard patterns".toList] else l

/-- C9 (counterexample): for `https://www.google.com` the produced reasons
list is `["✅ URL appears to follow standard patterns"]`, whose single entry
differs from the claim's quoted string
`"URL appears to follow standard patterns"`. -/
theorem reasons_text_counterexample :
    extract_features "https://www.google.com".toList =
      .ok { url_length := 22, has_ip := 0, has_at := 0, num_digits := 0
          , has_https := 1, num_subdomains := 1, has_brand_typo := 0 }
    ∧ get_reasons
        { url_length := 22, has_ip := 0, has_at := 0, num_digits := 0
        , has_https := 1, num_subdomains := 1, has_brand_typo := 0 }
        = ["✅ URL appears to follow standard patterns".toList]
    ∧ "✅ URL appears to follow standard patterns".toList
        ≠ "URL appears to follow standard patterns".toList := by
  refine ⟨rfl, rfl, by decide⟩

/-- C9 (amended): `get_reasons` checks its seven predicates in the fixed
order length, ip, at, https, brand, subdomains, digits, appending one fixed
reason per firing predicate, and emits exactly the single fallback reason
`"✅ URL appears to follow standard patterns"` when none fires; on the
features of `https://www.google.com` the reasons list is exactly that
singleton. -/
theorem reasons_order_spec :
    (∀ f : Features, get_reasons f = reasonsSpec f)
    ∧ get_reasons
        { url_length := 22, has_ip := 0, has_at := 0, num_digits := 0
        , has_https := 1, num_subdomains := 1, has_brand_typo := 0 }
        = ["✅ URL appears to follow standard patterns".toList] := by
  refine ⟨fun f => ?_, rfl⟩
  unfold get_reasons reasonsSpec
  by_cases h1 : 75 < f.url_length <;>
    by_cases h2 : f.has_ip = 1 <;>
      by_cases h3 : f.has_at = 1 <;>
        by_cases h4 : f.has_https = 0 <;>
          by_cases h5 : f.has_brand_typo = 1 <;>
            by_cases h6 : 3 < f.num_subdomains <;>
              by_cases h7 : 10 < f.num_digits <;>
                simp [h1, h2, h3, h4, h5, h6, h7]

/-- C10: `validate_url` converts a URL-parsing exception into a rejection
whose message is `"URL parsing error: "` followed by the exception text — a
sixth rejection category — and does so concretely on `http://[`, whose parse
raises `ValueError("Invalid IPv6 URL")`.  (In the embedding the function is
total over strings by construction, returning a pair in every case.) -/
theorem validator_parse_error_spec :
    (∀ url e : List Char, url ≠ [] → url.length ≤ 2048 →
      maliciousPatterns.find? (fun p => occurs p.1 (lowerStr url)) = none →
      pyUrlsplit url = .error e →
      validate_url url = (false, "URL parsing error: ".toList ++ e))
    ∧ validate_url "http://[".toList
        = (false, "URL parsing error: Invalid IPv6 URL".toList) := by
  constructor
  · intro url e hne hlen hfind hsplit
    have hemp : url.isEmpty = false := List.isEmpty_eq_false.mpr hne
    have hnlt : ¬ (2048 < url.length) := by omega
    simp [validate_url, hemp, hnlt, hfind, hsplit]
  · rfl

/-- C2 (counterexample): `extract_features` has no exception handler, so on
`http://[` the parse error `Invalid IPv6 URL` propagates instead of a
zero-filled vector being substituted. -/
theorem extractor_raises_counterexample :
    extract_features "http://[".toList = .error "Invalid IPv6 URL".toList
    ∧ (∀ f : Features, extract_features "http://[".toList ≠ .ok f) := by
  refine ⟨rfl, fun f h => ?_⟩
  rw [show extract_features "http://[".toList = .error "Invalid IPv6 URL".toList
    from rfl] at h
  exact Except.noConfusion h

/-- On any URL whose parse succeeds, `extract_features` returns its
7-component feature vector. -/
theorem extract_ok_of_parse {url scheme netloc : List Char}
    (h : pyUrlsplit url = .ok (scheme, netloc)) :
    ∃ f : Features, extract_features url = .ok f ∧ f.toList.length = 7 := by
  have hex : extract_features url =
      .ok { url_length := (url.length : Int)
          , has_ip := if searchIp netloc then 1 else 0
          , has_at := if url.contains '@' then 1 else 0
          , num_digits := ((url.filter Char.isDigit).length : Int)
          , has_https := if scheme = "https".toList then 1 else 0
          , num_subdomains :=
              if netloc.isEmpty then 0 else (netloc.count '.' : Int) - 1
          , has_brand_typo := brandTypoFeature netloc } := by
    unfold extract_features
    rw [h]
  exact ⟨_, hex, rfl⟩

/-- C2 (amended): `extract_features` is a deterministic function; on every
URL string whose parse succeeds it returns a 7-component feature vector
without raising — in particular on every URL the Validator accepts; when the
parse raises, the exception propagates (no zero-vector substitution). -/
theorem extractor_totality_spec :
    (∀ url : List Char, ∀ r : List Char × List Char, pyUrlsplit url = .ok r →
      ∃ f : Features, extract_features url = .ok f ∧ f.toList.length = 7)
    ∧ (∀ url : List Char, (validate_url url).1 = true →
      ∃ f : Features, extract_features url = .ok f ∧ f.toList.length = 7) := by
  constructor
  · intro url r h
    obtain ⟨scheme, netloc⟩ := r
    exact extract_ok_of_parse h
  · intro url h
    simp only [validate_url] at h
    split at h
    · simp at h
    · split at h
      · simp at h
      · split at h
        · simp at h
        · split at h
          · simp at h
          · next scheme netloc heq => exact extract_ok_of_parse heq

/-- C2 (witness): the amended extractor theorem exercised at two concrete
inputs — `ftp://x.com`, whose parse succeeds although the Validator rejects
its scheme, and the Validator-accepted `https://www.google.com`. -/
theorem extractor_totality_spec_witness :
    (pyUrlsplit "ftp://x.com".toList = .ok ("ftp".toList, "x.com".toList)
      ∧ ∃ f : Features,
          extract_features "ftp://x.com".toList = .ok f ∧ f.toList.length = 7)
    ∧ ((validate_url "https://www.google.com".toList).1 = true
      ∧ ∃ f : Features,
          extract_features "https://www.google.com".toList = .ok f
          ∧ f.toList.length = 7) :=
  ⟨⟨rfl, extractor_totality_spec.1 "ftp://x.com".toList ("ftp".toList, "x.com".toList) rfl⟩,
   ⟨rfl, extractor_totality_spec.2 "https://www.google.com".toList rfl⟩⟩

/-- C5 (counterexample): the sanitizer is not idempotent — `html.escape` is
applied on every pass, so `&` becomes `&amp;` and then `&amp;amp;`. -/
theorem sanitizer_not_idempotent :
    sanitize_input (.ofStr "&".toList) = "&amp;".toList
    ∧ sanitize_input (.ofStr "&amp;".toList) = "&amp;amp;".toList
    ∧ sanitize_input (.ofStr (sanitize_input (.ofStr "&".toList)))
        ≠ sanitize_input (.ofStr "&".toList) := by
  refine ⟨by decide, by decide, by decide⟩

/-- C5 (amended): the sanitizer is idempotent on every string containing none
of the five HTML-escapable characters `&`, `<`, `>`, `"`, `'`; on strings
containing one of them a second pass re-escapes the `&` of the inserted
entity, so idempotence fails. -/
theorem sanitizer_idempotent_plain (s : List Char)
    (h : ∀ c ∈ s, c ∉ escapedChars) :
    sanitizeStr (sanitizeStr s) = sanitizeStr s := by
  have hs1 : ∀ c ∈ s.filter (fun c => c ≠ '\x00'), c ∉ escapedChars :=
    fun c hc => h c (List.mem_of_mem_filter hc)
  have hesc : htmlEscape (s.filter (fun c => c ≠ '\x00'))
      = s.filter (fun c => c ≠ '\x00') := htmlEscape_eq_self hs1
  have hone : sanitizeStr s =
      pyStrip (if 2048 < (s.filter (fun c => c ≠ '\x00')).length
        then (s.filter (fun c => c ≠ '\x00')).take 2048
        else s.filter (fun c => c ≠ '\x00')) := by
    simp only [sanitizeStr]
    rw [hesc]
  set t := (if 2048 < (s.filter (fun c => c ≠ '\x00')).length
      then (s.filter (fun c => c ≠ '\x00')).take 2048
      else s.filter (fun c => c ≠ '\x00')) with ht
  have hsubt : ∀ a ∈ t, a ∈ s.filter (fun c => c ≠ '\x00') := by
    intro a ha
    rw [ht] at ha
    split at ha
    · exact List.take_subset _ _ ha
    · exact ha
  have hlent : t.length ≤ 2048 := by
    rw [ht]
    split_ifs with hl
    · rw [List.length_take]; omega
    · omega
  have hy : ∀ a ∈ pyStrip t, a ∈ s.filter (fun c => c ≠ '\x00') :=
    fun a ha => hsubt a (mem_of_mem_pyStrip ha)
  have hfil2 : (pyStrip t).filter (fun c => c ≠ '\x00') = pyStrip t := by
    rw [List.filter_eq_self]
    intro a ha
    exact (List.mem_filter.mp (hy a ha)).2
  have hesc2 : htmlEscape (pyStrip t) = pyStrip t :=
    htmlEscape_eq_self (fun c hc => hs1 c (hy c hc))
  have hlen2 : (pyStrip t).length ≤ 2048 := le_trans (length_pyStrip_le t) hlent
  rw [hone]
  simp only [sanitizeStr]
  rw [hfil2, hesc2, if_neg (by omega), pyStrip_idem]

/-- C5 (witness): the amended idempotence theorem applied at the concrete
escape-free string `http://ok.com`. -/
theorem sanitizer_idempotent_plain_witness :
    (∀ c ∈ "http://ok.com".toList, c ∉ escapedChars)
    ∧ sanitizeStr (sanitizeStr "http://ok.com".toList)
        = sanitizeStr "http://ok.com".toList :=
  ⟨by decide, sanitizer_idempotent_plain "http://ok.com".toList (by decide)⟩

/-- C6 (counterexample): a non-`str` request value whose `str()` coercion has
2049 characters (for instance the integer 10^2048) is returned by the
sanitizer unchanged, violating the length-≤-2048 invariant. -/
theorem sanitizer_invariant_counterexample :
    sanitize_input (.ofOther (List.replicate 2049 'a')) = List.replicate 2049 'a'
    ∧ 2048 < (sanitize_input (.ofOther (List.replicate 2049 'a'))).length := by
  refine ⟨rfl, ?_⟩
  show 2048 < (List.replicate 2049 'a').length
  rw [List.length_replicate]
  norm_num

/-- C6 (amended): for every Python `str` input the sanitizer's output
satisfies the SanitizedURL invariant — length at most 2048 and no embedded
null bytes; a non-`str` input bypasses sanitization (it is returned as its
`str()` representation), so the invariant is not guaranteed for it. -/
theorem sanitizer_string_invariant (s : List Char) :
    (sanitize_input (.ofStr s)).length ≤ 2048
    ∧ '\x00' ∉ sanitize_input (.ofStr s) :=
  ⟨sanitizeStr_length_le s, null_not_mem_sanitizeStr s⟩

/-- C3 (counterexample): a 2049-character URL is rejected with the message
`"URL too long (max 2048 characters)"`, which is not the claim's quoted
reason `"URL too long"`. -/
theorem validator_message_counterexample :
    validate_url (List.replicate 2049 'a')
      = (false, "URL too long (max 2048 characters)".toList)
    ∧ "URL too long (max 2048 characters)".toList ≠ "URL too long".toList := by
  constructor
  · have hne : List.replicate 2049 'a' ≠ [] := by
      intro h
      have hl := congrArg List.length h
      rw [List.length_replicate] at hl
      exact absurd hl (by norm_num)
    have hemp := List.isEmpty_eq_false.mpr hne
    have hlen : (List.replicate 2049 'a').length = 2049 := List.length_replicate ..
    unfold validate_url
    rw [hemp, hlen, if_neg (by decide), if_pos (by norm_num)]
  · decide

/-- C3 (amended): the Validator checks its five rules in order with first
failure winning — empty string rejected with `"URL cannot be empty"`, length
over 2048 with `"URL too long (max 2048 characters)"`, a dangerous-pattern
match with a reason naming the matched pattern, missing scheme or authority
with `"Invalid URL format"`, a non-http(s) scheme with
`"Only HTTP and HTTPS URLs are supported"`; every URL containing
`javascript:` case-insensitively is rejected. -/
theorem validator_rule_order (url : List Char) :
    (url = [] → validate_url url = (false, "URL cannot be empty".toList))
    ∧ (url ≠ [] → 2048 < url.length →
        validate_url url = (false, "URL too long (max 2048 characters)".toList))
    ∧ (∀ p, url ≠ [] → url.length ≤ 2048 →
        maliciousPatterns.find? (fun q => occurs q.1 (lowerStr url)) = some p →
        validate_url url =
          (false, "URL contains potentially malicious content: ".toList ++ p.2))
    ∧ (∀ scheme netloc, url ≠ [] → url.length ≤ 2048 →
        maliciousPatterns.find? (fun q => occurs q.1 (lowerStr url)) = none →
        pyUrlsplit url = .ok (scheme, netloc) → (scheme = [] ∨ netloc = []) →
        validate_url url = (false, "Invalid URL format".toList))
    ∧ (∀ scheme netloc, url ≠ [] → url.length ≤ 2048 →
        maliciousPatterns.find? (fun q => occurs q.1 (lowerStr url)) = none →
        pyUrlsplit url = .ok (scheme, netloc) → scheme ≠ [] → netloc ≠ [] →
        scheme ≠ "http".toList → scheme ≠ "https".toList →
        validate_url url = (false, "Only HTTP and HTTPS URLs are supported".toList))
    ∧ (occurs "javascript:".toList (lowerStr url) = true →
        (validate_url url).1 = false) := by
  refine ⟨?_, ?_, ?_, ?_, ?_, ?_⟩
  · intro h
    subst h
    rfl
  · intro hne hlen
    have hemp := List.isEmpty_eq_false.mpr hne
    simp [validate_url, hemp, hlen]
  · intro p hne hlen hfind
    have hemp := List.isEmpty_eq_false.mpr hne
    have hnlt : ¬ (2048 < url.length) := by omega
    simp [validate_url, hemp, hnlt, hfind]
  · intro scheme netloc hne hlen hfind hsplit hor
    have hemp := List.isEmpty_eq_false.mpr hne
    have hnlt : ¬ (2048 < url.length) := by omega
    rcases hor with h | h <;>
      simp [validate_url, hemp, hnlt, hfind, hsplit, h]
  · intro scheme netloc hne hlen hfind hsplit hs hn h1 h2
    have hemp := List.isEmpty_eq_false.mpr hne
    have hnlt : ¬ (2048 < url.length) := by omega
    have hse := List.isEmpty_eq_false.mpr hs
    have hnn := List.isEmpty_eq_false.mpr hn
    simp only [validate_url, hemp, hnlt, hfind, hsplit]
    simp [hse, hnn]
    exact ⟨fun hh => h1 (hh.trans rfl), fun hh => h2 (hh.trans rfl)⟩
  · intro hjs
    by_cases hne : url = []
    · subst hne
      rfl
    · have hemp := List.isEmpty_eq_false.mpr hne
      by_cases hlen : 2048 < url.length
      · simp [validate_url, hemp, hlen]
      · have hfind : maliciousPatterns.find? (fun q => occurs q.1 (lowerStr url))
            = some ("javascript:".toList, "javascript:".toList) := by
          unfold maliciousPatterns
          exact List.find?_cons_of_pos _ hjs
        simp [validate_url, hemp, hlen, hfind]

/-- A `dropWhile` step on a head the predicate rejects. -/
theorem dropWhile_cons_false {α : Type} {p : α → Bool} {a : α} {l : List α}
    (h : p a = false) : (a :: l).dropWhile p = a :: l := by
  rw [List.dropWhile_cons, h]
  simp

/-- The oversized request URL used for claim C7: `http://ex.com/` followed by
2040 copies of `a` — 2054 characters in total. -/
def longUrl : List Char := "http://ex.com/".toList ++ List.replicate 2040 'a'

/-- The sanitized (truncated) form of `longUrl`: 2048 characters. -/
def longUrlTrunc : List Char := "http://ex.com/".toList ++ List.replicate 2034 'a'

theorem longUrl_length : longUrl.length = 2054 := by
  unfold longUrl
  rw [List.length_append, List.length_replicate]
  rfl

theorem longUrlTrunc_length : longUrlTrunc.length = 2048 := by
  unfold longUrlTrunc
  rw [List.length_append, List.length_replicate]
  rfl

theorem pyStrip_longTrunc : pyStrip longUrlTrunc = longUrlTrunc := by
  unfold longUrlTrunc pyStrip
  have hfront : ("http://ex.com/".toList ++ List.replicate 2034 'a').dropWhile isPySpace
      = "http://ex.com/".toList ++ List.replicate 2034 'a' := dropWhile_cons_false rfl
  have hback : (("http://ex.com/".toList ++ List.replicate 2034 'a').reverse).dropWhile isPySpace
      = ("http://ex.com/".toList ++ List.replicate 2034 'a').reverse := by
    rw [List.reverse_append, List.reverse_replicate]
    exact dropWhile_cons_false rfl
  rw [hfront, hback, List.reverse_reverse]

theorem sanitizeStr_longUrl : sanitizeStr longUrl = longUrlTrunc := by
  have hfil : (("http://ex.com/".toList ++ List.replicate 2040 'a').filter
        (fun c => c ≠ '\x00'))
      = "http://ex.com/".toList ++ List.replicate 2040 'a' := by
    rw [List.filter_append, List.filter_replicate,
      if_pos (show (decide ('a' ≠ '\x00')) = true from rfl),
      show ("http://ex.com/".toList).filter (fun c => c ≠ '\x00')
        = "http://ex.com/".toList from by decide]
  have hesc : htmlEscape ("http://ex.com/".toList ++ List.replicate 2040 'a')
      = "http://ex.com/".toList ++ List.replicate 2040 'a' := by
    rw [htmlEscape_append,
      htmlEscape_eq_self (s := "http://ex.com/".toList) (by decide),
      htmlEscape_eq_self (s := List.replicate 2040 'a')
        (fun c hc => by rw [(List.mem_replicate.mp hc).2]; decide)]
  have hlen : ("http://ex.com/".toList ++ List.replicate 2040 'a').length = 2054 :=
    longUrl_length
  have htake : ("http://ex.com/".toList ++ List.replicate 2040 'a').take 2048
      = "http://ex.com/".toList ++ List.replicate 2034 'a' := by
    rw [List.take_append_eq_append_take,
        List.take_of_length_le (show ("http://ex.com/".toList).length ≤ 2048 by decide),
        List.take_replicate]
    rw [show (2048 - ("http://ex.com/".toList).length) ⊓ 2040 = 2034 from rfl]
  show sanitizeStr longUrl = longUrlTrunc
  unfold longUrl longUrlTrunc
  simp only [sanitizeStr]
  rw [hfil, hesc, hlen, if_pos (show (2048:Nat) < 2054 by norm_num), htake]
  exact pyStrip_longTrunc

theorem lowerStr_longTrunc : lowerStr longUrlTrunc = longUrlTrunc := by
  unfold longUrlTrunc lowerStr
  rw [List.map_append, List.map_replicate,
    show List.map lowerChar ("http://ex.com/".toList)
      = "http://ex.com/".toList from by decide,
    show lowerChar 'a' = 'a' from rfl]

theorem not_mem_longTrunc (c : Char) (h1 : c ∉ "http://ex.com/".toList)
    (h2 : c ≠ 'a') : c ∉ longUrlTrunc := by
  unfold longUrlTrunc
  intro hmem
  rcases List.mem_append.mp hmem with hm | hm
  · exact h1 hm
  · exact h2 (List.mem_replicate.mp hm).2

theorem find_malicious_longTrunc :
    maliciousPatterns.find? (fun q => occurs q.1 (lowerStr longUrlTrunc)) = none := by
  rw [List.find?_eq_none]
  intro q hq
  rw [lowerStr_longTrunc]
  simp only [maliciousPatterns, List.mem_cons, List.not_mem_nil, or_false] at hq
  rcases hq with rfl|rfl|rfl|rfl|rfl|rfl|rfl|rfl|rfl|rfl
  · have hf := occurs_eq_false_of_not_mem (n := "javascript:".toList) (c := 'j')
      (by decide) (not_mem_longTrunc 'j' (by decide) (by decide))
    simpa using hf
  · have hf := occurs_eq_false_of_not_mem (n := "data:".toList) (c := 'd')
      (by decide) (not_mem_longTrunc 'd' (by decide) (by decide))
    simpa using hf
  · have hf := occurs_eq_false_of_not_mem (n := "vbscript:".toList) (c := 'v')
      (by decide) (not_mem_longTrunc 'v' (by decide) (by decide))
    simpa using hf
  · have hf := occurs_eq_false_of_not_mem (n := "file:".toList) (c := 'f')
      (by decide) (not_mem_longTrunc 'f' (by decide) (by decide))
    simpa using hf
  · have hf := occurs_eq_false_of_not_mem (n := "<script".toList) (c := '<')
      (by decide) (not_mem_longTrunc '<' (by decide) (by decide))
    simpa using hf
  · have hf := occurs_eq_false_of_not_mem (n := "</script>".toList) (c := '<')
      (by decide) (not_mem_longTrunc '<' (by decide) (by decide))
    simpa using hf
  · have hf := occurs_eq_false_of_not_mem (n := "<iframe".toList) (c := '<')
      (by decide) (not_mem_longTrunc '<' (by decide) (by decide))
    simpa using hf
  · have hf := occurs_eq_false_of_not_mem (n := "</iframe>".toList) (c := '<')
      (by decide) (not_mem_longTrunc '<' (by decide) (by decide))
    simpa using hf
  · have hf := occurs_eq_false_of_not_mem (n := "eval(".toList) (c := 'v')
      (by decide) (not_mem_longTrunc 'v' (by decide) (by decide))
    simpa using hf
  · have hf := occurs_eq_false_of_not_mem (n := "alert(".toList) (c := 'l')
      (by decide) (not_mem_longTrunc 'l' (by decide) (by decide))
    simpa using hf

theorem pyUrlsplit_longTrunc :
    pyUrlsplit longUrlTrunc = .ok ("http".toList, "ex.com".toList) := by
  have hu1 : ("http://ex.com/".toList ++ List.replicate 2034 'a').dropWhile c0OrSpace
      = "http://ex.com/".toList ++ List.replicate 2034 'a' := dropWhile_cons_false rfl
  have hu2 : ("http://ex.com/".toList ++ List.replicate 2034 'a').filter
        (fun c => !(unsafeUrlByte c))
      = "http://ex.com/".toList ++ List.replicate 2034 'a' := by
    rw [List.filter_append, List.filter_replicate,
      if_pos (show (!(unsafeUrlByte 'a')) = true from rfl),
      show ("http://ex.com/".toList).filter (fun c => !(unsafeUrlByte c))
        = "http://ex.com/".toList from by decide]
  unfold longUrlTrunc
  simp only [pyUrlsplit]
  rw [hu1, hu2]
  rfl

theorem validate_url_longTrunc : validate_url longUrlTrunc = (true, []) := by
  unfold validate_url
  rw [show longUrlTrunc.isEmpty = false from rfl,
    if_neg (show ¬ (false = true) from by decide),
    longUrlTrunc_length,
    if_neg (show ¬ ((2048:Nat) < 2048) from by norm_num),
    find_malicious_longTrunc, pyUrlsplit_longTrunc]
  rfl

theorem validate_api_request_longUrl :
    validate_api_request ⟨some (.ofStr longUrl)⟩ = (true, [], some longUrlTrunc) := by
  simp only [validate_api_request, sanitize_input]
  rw [sanitizeStr_longUrl, validate_url_longTrunc]
  rfl

/-- For an input of at most 2048 characters, `validate_url` never produces
the "URL too long" rejection message. -/
theorem not_too_long_reason {s : List Char} (h : s.length ≤ 2048) :
    (validate_url s).2 ≠ "URL too long (max 2048 characters)".toList := by
  simp only [validate_url]
  split
  · decide
  · split
    · next hlt => exact absurd hlt (by omega)
    · split
      · next p heq =>
        intro hcontra
        have hc2 : "URL contains potentially malicious content: ".toList ++ p.2
            = "URL too long (max 2048 characters)".toList := hcontra
        have h4 : ("URL contains potentially malicious content: ".toList ++ p.2)[4]?
            = ("URL too long (max 2048 characters)".toList)[4]? :=
          congrArg (fun l : List Char => l[4]?) hc2
        rw [List.getElem?_append, if_pos (by decide)] at h4
        exact absurd h4 (by decide)
      · split
        · next e heq =>
          intro hcontra
          have hc2 : "URL parsing error: ".toList ++ e
              = "URL too long (max 2048 characters)".toList := hcontra
          have h4 : ("URL parsing error: ".toList ++ e)[4]?
              = ("URL too long (max 2048 characters)".toList)[4]? :=
            congrArg (fun l : List Char => l[4]?) hc2
          rw [List.getElem?_append, if_pos (by decide)] at h4
          exact absurd h4 (by decide)
        · split
          · decide
          · split
            · decide
            · decide

/-- C7 (counterexample): a request whose URL string has 2054 (> 2048)
characters is accepted by the sanitize-then-validate pipeline — it is not
rejected, so the caller proceeds to feature extraction on it. -/
theorem oversize_url_accepted :
    2048 < longUrl.length
    ∧ (validate_api_request ⟨some (.ofStr longUrl)⟩).1 = true := by
  refine ⟨?_, ?_⟩
  · rw [longUrl_length]; norm_num
  · rw [validate_api_request_longUrl]

/-- C7 (amended): `sanitize_input` truncates every string to at most 2048
characters, so the Validator's length rule never fires on a sanitized URL;
an over-2048-character URL is not rejected for length — concretely, the
2054-character `longUrl` is accepted by the pipeline in truncated form, and
feature extraction would then run on it. -/
theorem truncation_preempts_length_rule :
    (∀ u : List Char, (sanitizeStr u).length ≤ 2048)
    ∧ (∀ u : List Char,
        (validate_url (sanitizeStr u)).2 ≠ "URL too long (max 2048 characters)".toList)
    ∧ 2048 < longUrl.length
    ∧ validate_api_request ⟨some (.ofStr longUrl)⟩ = (true, [], some longUrlTrunc) := by
  refine ⟨sanitizeStr_length_le,
    fun u => not_too_long_reason (sanitizeStr_length_le u), ?_,
    validate_api_request_longUrl⟩
  rw [longUrl_length]
  norm_num
